import Mathlib

/-!
Verification of the `DeepFeudalBatchProcessor` streaming window engine
(`src/networks/deep_feudal/batch_processor.py`).

Embedding conventions.  The processor is generic in the per-timestep
payloads (numpy arrays of unknown rank); every claim about the windowing
engine is settled over scalar rational payloads, i.e. each observation,
action, return, embedding, index and feature entry is one `ℚ`.  For a
scalar `x`, `np.zeros_like x = 0`, `np.linalg.norm x = |x|` and
`np.dot (np.squeeze u) (np.squeeze v) = u * v`, so `cosine_similarity`
specialises to `cosineSimQ` below.  Python's `None` placeholders used by
`_pad_front` are modelled with `Option ℚ` buffers (`none` = `None`).
Python exceptions are modelled with `Except`: `PyErr.indexOutOfRange` is
an `IndexError` from indexing an empty or too-short list/array.  `1e-8`
is idealised as the exact rational `1/10^8`.  A separate `List ℝ` model
near the end of the file covers `cosine_similarity` on genuine vectors,
where the norm needs a real square root.

Batteries marks the `Rat` field operations irreducible; restoring their
default reducibility file-locally lets concrete runs of the model be
checked by `decide` in the kernel.
-/

attribute [local semireducible] Rat.add Rat.sub Rat.mul Rat.inv

deriving instance DecidableEq for Except

namespace NLFuN

/-- The `eps=1e-8` default of `cosine_similarity`, as an exact rational. -/
def eps : ℚ := 1 / 100000000

/-- `cosine_similarity` from the source, specialised to scalar payloads:
`np.dot(np.squeeze u, np.squeeze v) = u * v` and
`np.linalg.norm x = |x|` for 0-d/scalar input. -/
def cosineSimQ (u v : ℚ) : ℚ := u * v / (|u| * |v| + eps)

/-- Python errors raised by the embedded code.  `indexOutOfRange` models
`IndexError` (indexing an empty list or array).  `emptyBatch` models the
spec's `EmptyBatchError` taxonomy item; the source contains no such
check and never raises it — the constructor exists so that the spec's
error-handling sentence can be stated and compared with the code. -/
inductive PyErr where
  | indexOutOfRange : PyErr
  | emptyBatch : PyErr
deriving DecidableEq

/-- One raw trajectory fragment handed to `process_batch`: the parallel
per-timestep fields of the source `Batch`-shaped input plus the
`terminal` flag.  `act_id` is `actions["non_spatial"]`, `act_spatial`
is `actions["spatial"]`. -/
structure RawBatch where
  screen : List ℚ
  minimap : List ℚ
  non_spatial : List ℚ
  act_id : List ℚ
  act_spatial : List ℚ
  manager_returns : List ℚ
  worker_returns : List ℚ
  s : List ℚ
  g : List ℚ
  g_prev : List ℚ
  idx : List ℚ
  features : List ℚ
  terminal : Bool
deriving DecidableEq

/-- All per-timestep fields of a raw batch have length `L`
(the shape-consistency contract of §6 of the spec; `L = 0` is the
zero-timestep batch). -/
def wellFormed (b : RawBatch) (L : ℕ) : Prop :=
  b.screen.length = L ∧ b.minimap.length = L ∧ b.non_spatial.length = L ∧
  b.act_id.length = L ∧ b.act_spatial.length = L ∧
  b.manager_returns.length = L ∧ b.worker_returns.length = L ∧
  b.s.length = L ∧ b.g.length = L ∧ b.g_prev.length = L ∧
  b.idx.length = L ∧ b.features.length = L

instance (b : RawBatch) (L : ℕ) : Decidable (wellFormed b L) := by
  unfold wellFormed; infer_instance

/-- The cross-call state of `DeepFeudalBatchProcessor`.  `g_save`,
`g_prev` and `idx` are created by `_pad_front` on the first call of an
episode (in Python they do not exist before that); they are initialised
to `[]` here, which is unobservable because `last_terminal = true`
forces `_pad_front` to overwrite them before any read. -/
structure ProcState where
  c : ℕ
  last_terminal : Bool
  screen : List ℚ
  minimap : List ℚ
  non_spatial : List ℚ
  act_id : List (Option ℚ)
  act_spatial : List (Option ℚ)
  manager_returns : List (Option ℚ)
  worker_returns : List (Option ℚ)
  s : List ℚ
  g : List ℚ
  g_save : List (Option ℚ)
  g_prev : List (Option ℚ)
  idx : List (Option ℚ)
  features : List (Option ℚ)
deriving DecidableEq

/-- `DeepFeudalBatchProcessor.__init__(c)`. -/
def initProc (c : ℕ) : ProcState :=
  { c := c, last_terminal := true,
    screen := [], minimap := [], non_spatial := [],
    act_id := [], act_spatial := [],
    manager_returns := [], worker_returns := [],
    s := [], g := [], g_save := [], g_prev := [], idx := [],
    features := [] }

/-- `lst[-n:]` in Python: the last `n` elements (the whole list when it
is shorter than `n`; `n = 2c ≥ 1` in every use below). -/
def takeLast (n : ℕ) (l : List α) : List α := l.drop (l.length - n)

/-- `DeepFeudalBatchProcessor._pad_front`.  Reads `batch.s[0]` and
`batch.g[0]` inside `c`-fold comprehensions (an `IndexError` when the
batch is empty and `c ≥ 1`); for scalar payloads every zero-placeholder
is `0` and every `None` placeholder is `none`.  Every buffer field of
the state is reassigned; only `c` and `last_terminal` survive. -/
def pad_front (st : ProcState) (b : RawBatch) : Except PyErr ProcState :=
  if st.c ≠ 0 ∧ (b.s.isEmpty ∨ b.g.isEmpty) then .error .indexOutOfRange
  else .ok { st with
    s := List.replicate st.c 0
    g := List.replicate st.c 0
    screen := List.replicate st.c 0
    minimap := List.replicate st.c 0
    non_spatial := List.replicate st.c 0
    act_spatial := List.replicate st.c none
    act_id := List.replicate st.c none
    g_save := List.replicate st.c none
    g_prev := List.replicate st.c none
    idx := List.replicate st.c none
    manager_returns := List.replicate st.c none
    worker_returns := List.replicate st.c none
    features := List.replicate st.c none }

/-- `DeepFeudalBatchProcessor._pad_back`.  The source appends
`np.zeros_like(batch.s[-1])` and `np.zeros_like(batch.g[-1])` `c`
times, i.e. zero values of the final entry's shape — for scalar
payloads, `c` zeros (reading `batch.s[-1]` raises `IndexError` on an
empty batch when `c ≥ 1`). -/
def pad_back (st : ProcState) (b : RawBatch) : Except PyErr ProcState :=
  if st.c ≠ 0 ∧ (b.s.isEmpty ∨ b.g.isEmpty) then .error .indexOutOfRange
  else .ok { st with
    s := st.s ++ List.replicate st.c 0
    g := st.g ++ List.replicate st.c 0 }

/-- `DeepFeudalBatchProcessor._extend`: when `last_terminal` is set,
clear it and `_pad_front`; append every raw-batch field to its buffer
(real values wrapped in `some` where the buffer holds placeholders);
when the batch is terminal, `_pad_back`. -/
def extend (st : ProcState) (b : RawBatch) : Except PyErr ProcState :=
  match (if st.last_terminal
         then pad_front { st with last_terminal := false } b
         else .ok st) with
  | .error e => .error e
  | .ok st0 =>
    let st1 : ProcState := { st0 with
      screen := st0.screen ++ b.screen
      minimap := st0.minimap ++ b.minimap
      non_spatial := st0.non_spatial ++ b.non_spatial
      act_spatial := st0.act_spatial ++ b.act_spatial.map some
      act_id := st0.act_id ++ b.act_id.map some
      g_save := st0.g_save ++ b.g.map some
      idx := st0.idx ++ b.idx.map some
      g_prev := st0.g_prev ++ b.g_prev.map some
      manager_returns := st0.manager_returns ++ b.manager_returns.map some
      worker_returns := st0.worker_returns ++ b.worker_returns.map some
      s := st0.s ++ b.s
      g := st0.g ++ b.g
      features := st0.features ++ b.features.map some }
    if b.terminal then pad_back st1 b else .ok st1

/-- The `DeepFeudalBatch` accumulator: one growable parallel list per
field, all initially empty (`DeepFeudalBatch.__init__`). -/
structure DeepFeudalBatch where
  screen : List ℚ
  minimap : List ℚ
  non_spatial : List ℚ
  act_id : List (Option ℚ)
  act_spatial : List (Option ℚ)
  manager_returns : List (Option ℚ)
  worker_returns : List (Option ℚ)
  s_diff : List ℚ
  ri : List ℚ
  g : List (Option ℚ)
  gsum : List ℚ
  g_prev : List (Option ℚ)
  idx : List (Option ℚ)
  features : List (Option ℚ)
deriving DecidableEq

/-- A fresh accumulator, all fields empty. -/
def DeepFeudalBatch.empty : DeepFeudalBatch :=
  { screen := [], minimap := [], non_spatial := [],
    act_id := [], act_spatial := [],
    manager_returns := [], worker_returns := [],
    s_diff := [], ri := [], g := [], gsum := [], g_prev := [],
    idx := [], features := [] }

/-- `DeepFeudalBatch.add`, appending one record's fields (parameters in
the source's order). -/
def DeepFeudalBatch.add (a : DeepFeudalBatch)
    (screen_obs minimap_obs non_spatial_obs : ℚ)
    (act_id act_target : Option ℚ)
    (manager_returns worker_returns : Option ℚ)
    (s_diff ri : ℚ) (g : Option ℚ) (gsum : ℚ) (g_prev : Option ℚ)
    (idx features : Option ℚ) : DeepFeudalBatch :=
  { screen := a.screen ++ [screen_obs]
    minimap := a.minimap ++ [minimap_obs]
    non_spatial := a.non_spatial ++ [non_spatial_obs]
    act_id := a.act_id ++ [act_id]
    act_spatial := a.act_spatial ++ [act_target]
    manager_returns := a.manager_returns ++ [manager_returns]
    worker_returns := a.worker_returns ++ [worker_returns]
    s_diff := a.s_diff ++ [s_diff]
    ri := a.ri ++ [ri]
    g := a.g ++ [g]
    gsum := a.gsum ++ [gsum]
    g_prev := a.g_prev ++ [g_prev]
    idx := a.idx ++ [idx]
    features := a.features ++ [features] }

/-- The output `Batch` namedtuple.  `g_in` is the accumulated `g` list,
`idx` and `features` are the first accumulated record's entries
(`batch_idx[0]`, `self.features[0]`).  The per-record lists carry the
accumulated values; `get_batch`'s `np.asarray` rank normalisation is a
function of these lists, so equality of this record implies equality of
the source's arrays, and for scalar payloads the `gsum` output reduces
to the accumulated per-record window sums. -/
structure Batch where
  screen : List ℚ
  minimap : List ℚ
  non_spatial : List ℚ
  act_id : List (Option ℚ)
  act_spatial : List (Option ℚ)
  manager_returns : List (Option ℚ)
  worker_returns : List (Option ℚ)
  s_diff : List ℚ
  ri : List ℚ
  g_in : List (Option ℚ)
  gsum : List ℚ
  g_prev : List (Option ℚ)
  idx : Option ℚ
  features : Option ℚ
deriving DecidableEq

/-- `DeepFeudalBatch.get_batch`.  `batch_idx[0]` (and `self.features[0]`)
raise `IndexError` when no record was ever added; otherwise the batch is
assembled from the accumulated lists. -/
def get_batch (a : DeepFeudalBatch) : Except PyErr Batch :=
  match a.idx, a.features with
  | i0 :: _, f0 :: _ =>
    .ok { screen := a.screen, minimap := a.minimap,
          non_spatial := a.non_spatial,
          act_id := a.act_id, act_spatial := a.act_spatial,
          manager_returns := a.manager_returns,
          worker_returns := a.worker_returns,
          s_diff := a.s_diff, ri := a.ri, g_in := a.g,
          gsum := a.gsum, g_prev := a.g_prev,
          idx := i0, features := f0 }
  | _, _ => .error .indexOutOfRange

/-- The body of the `for t in range(c, end)` loop of `process_batch`:
`s_diff = s[t+c] - s[t]`; `ri` is the `c`-term average of cosine
similarities of `s[t] - s[t-i]` against `g[t-i]` for `i = 1..c`;
`gsum` is the inclusive window sum `g[t-c] + ... + g[t]`; the record
combines the buffered fields at `t`.  Every index the loop reads is in
range in the loop's uses (`t ∈ [c, end)` and the `s`,`g` buffers extend
`c` past `end` in the terminal case), so `getD`'s defaults are never
exercised there. -/
def windowStep (st : ProcState) (acc : DeepFeudalBatch) (t : ℕ) :
    DeepFeudalBatch :=
  let s_diff := st.s.getD (t + st.c) 0 - st.s.getD t 0
  let ri := (((List.range' 1 st.c).map fun i =>
      cosineSimQ (st.s.getD t 0 - st.s.getD (t - i) 0)
        (st.g.getD (t - i) 0)).sum) / (st.c : ℚ)
  let gsum := ((List.range' (t - st.c) (st.c + 1)).map
      fun i => st.g.getD i 0).sum
  acc.add (st.screen.getD t 0) (st.minimap.getD t 0)
    (st.non_spatial.getD t 0)
    (st.act_id.getD t none) (st.act_spatial.getD t none)
    (st.manager_returns.getD t none) (st.worker_returns.getD t none)
    s_diff ri (st.g_save.getD t none) gsum (st.g_prev.getD t none)
    (st.idx.getD t none) (st.features.getD t none)

/-- The whole windowing loop `for t in range(c, end)` of
`process_batch`, folded into a fresh accumulator. -/
def windowLoop (st : ProcState) (endIdx : ℕ) : DeepFeudalBatch :=
  (List.range' st.c (endIdx - st.c)).foldl (windowStep st)
    DeepFeudalBatch.empty

/-- The non-terminal trim step (lines 204-216 of the source): every
buffer listed there keeps its last `2c` entries — except
`worker_returns`, which the source assigns from the just-trimmed
`manager_returns` (line 213), and `g_save`, `g_prev`, `idx`, which the
source never trims. -/
def trimState (st : ProcState) : ProcState :=
  let twoc := 2 * st.c
  { st with
    screen := takeLast twoc st.screen
    minimap := takeLast twoc st.minimap
    non_spatial := takeLast twoc st.non_spatial
    act_spatial := takeLast twoc st.act_spatial
    act_id := takeLast twoc st.act_id
    manager_returns := takeLast twoc st.manager_returns
    worker_returns := takeLast twoc (takeLast twoc st.manager_returns)
    s := takeLast twoc st.s
    g := takeLast twoc st.g
    features := takeLast twoc st.features }

/-- `DeepFeudalBatchProcessor.process_batch`: extend (with padding),
window, then either mark the episode done (terminal) or trim, and
finalise the accumulator via `get_batch`. -/
def process_batch (st : ProcState) (b : RawBatch) :
    Except PyErr (Batch × ProcState) :=
  match extend st b with
  | .error e => .error e
  | .ok st1 =>
    match get_batch (windowLoop st1
        (if b.terminal then st1.screen.length
         else st1.screen.length - st1.c)) with
    | .error e => .error e
    | .ok out =>
      .ok (out, if b.terminal then { st1 with last_terminal := true }
                else trimState st1)

/-- A maximal prefix of calls on one processor, stopping at (and
including) the first error: feeding batches `bs` in order from state
`st` and collecting each call's result. -/
def runSeq (st : ProcState) : List RawBatch → List (Except PyErr Batch)
  | [] => []
  | b :: bs =>
    match process_batch st b with
    | .error e => [.error e]
    | .ok (out, st') => .ok out :: runSeq st' bs

/-- The state produced by `_extend` on a freshly constructed processor:
front padding, the appended batch, and (for a terminal batch) the zero
back padding of the embedding buffers. -/
def extendInitState (c : ℕ) (b : RawBatch) : ProcState :=
  { c := c
    last_terminal := false
    screen := List.replicate c 0 ++ b.screen
    minimap := List.replicate c 0 ++ b.minimap
    non_spatial := List.replicate c 0 ++ b.non_spatial
    act_id := List.replicate c none ++ b.act_id.map some
    act_spatial := List.replicate c none ++ b.act_spatial.map some
    manager_returns := List.replicate c none ++ b.manager_returns.map some
    worker_returns := List.replicate c none ++ b.worker_returns.map some
    s := (List.replicate c 0 ++ b.s) ++
      (if b.terminal then List.replicate c 0 else [])
    g := (List.replicate c 0 ++ b.g) ++
      (if b.terminal then List.replicate c 0 else [])
    g_save := List.replicate c none ++ b.g.map some
    g_prev := List.replicate c none ++ b.g_prev.map some
    idx := List.replicate c none ++ b.idx.map some
    features := List.replicate c none ++ b.features.map some }

/-! Concrete inputs used by the per-claim evaluations below. -/

/-- C1's failing input: horizon 1, a terminal one-step batch whose final
(and only) state embedding is `3` and goal embedding is `4`. -/
def termBatch1 : RawBatch :=
  { screen := [1], minimap := [1], non_spatial := [1], act_id := [1],
    act_spatial := [1], manager_returns := [1], worker_returns := [1],
    s := [3], g := [4], g_prev := [1], idx := [1], features := [1],
    terminal := true }

/-- C2's and C3's failing input: horizon 1, a non-terminal two-step
batch with manager returns `[10, 11]` and worker returns `[20, 21]`. -/
def ntBatch2 : RawBatch :=
  { screen := [0, 0], minimap := [0, 0], non_spatial := [0, 0],
    act_id := [0, 0], act_spatial := [0, 0],
    manager_returns := [10, 11], worker_returns := [20, 21],
    s := [0, 0], g := [0, 0], g_prev := [0, 0], idx := [0, 1],
    features := [0, 0], terminal := false }

/-- C4's whole trajectory: `T = 3` steps, horizon 1, goal embeddings
`[5, 7, 9]`, manager returns `[100, 101, 102]`, worker returns
`[200, 201, 202]`, fed as one terminal batch. -/
def c4Full : RawBatch :=
  { screen := [0, 0, 0], minimap := [0, 0, 0], non_spatial := [0, 0, 0],
    act_id := [0, 0, 0], act_spatial := [0, 0, 0],
    manager_returns := [100, 101, 102],
    worker_returns := [200, 201, 202],
    s := [0, 0, 0], g := [5, 7, 9], g_prev := [0, 0, 0],
    idx := [0, 1, 2], features := [0, 0, 0], terminal := true }

/-- C4's first fragment: the first `k = 2` steps, non-terminal. -/
def c4First : RawBatch :=
  { screen := [0, 0], minimap := [0, 0], non_spatial := [0, 0],
    act_id := [0, 0], act_spatial := [0, 0],
    manager_returns := [100, 101], worker_returns := [200, 201],
    s := [0, 0], g := [5, 7], g_prev := [0, 0], idx := [0, 1],
    features := [0, 0], terminal := false }

/-- C4's second fragment: the remaining `T - k = 1` step, terminal. -/
def c4Second : RawBatch :=
  { screen := [0], minimap := [0], non_spatial := [0], act_id := [0],
    act_spatial := [0], manager_returns := [102],
    worker_returns := [202], s := [0], g := [9], g_prev := [0],
    idx := [2], features := [0], terminal := true }

/-- The `g_in` and `worker_returns` outputs of the two-call schedule of
C4: first `c4First` then `c4Second` on one fresh horizon-1 processor. -/
def c4SplitOutputs :
    Option ((List (Option ℚ) × List (Option ℚ)) ×
            (List (Option ℚ) × List (Option ℚ))) := do
  let (o1, st1) ← (process_batch (initProc 1) c4First).toOption
  let (o2, _) ← (process_batch st1 c4Second).toOption
  pure ((o1.g_in, o1.worker_returns), (o2.g_in, o2.worker_returns))

/-- C7's concrete scenario: horizon 2 and a five-step terminal
trajectory with scalar state embeddings `s_t = t` and goal embeddings
`g_t = 1`. -/
def scenario7 : RawBatch :=
  { screen := [0, 0, 0, 0, 0], minimap := [0, 0, 0, 0, 0],
    non_spatial := [0, 0, 0, 0, 0], act_id := [0, 0, 0, 0, 0],
    act_spatial := [0, 0, 0, 0, 0],
    manager_returns := [0, 0, 0, 0, 0],
    worker_returns := [0, 0, 0, 0, 0],
    s := [0, 1, 2, 3, 4], g := [1, 1, 1, 1, 1],
    g_prev := [0, 0, 0, 0, 0], idx := [0, 1, 2, 3, 4],
    features := [0, 0, 0, 0, 0], terminal := true }

/-- A raw batch with zero timesteps (every field empty). -/
def emptyBatch0 : RawBatch :=
  { screen := [], minimap := [], non_spatial := [], act_id := [],
    act_spatial := [], manager_returns := [], worker_returns := [],
    s := [], g := [], g_prev := [], idx := [], features := [],
    terminal := false }

/-- C10's witness input: horizon 2, a one-step non-terminal batch. -/
def shortBatch1 : RawBatch :=
  { screen := [0], minimap := [0], non_spatial := [0], act_id := [0],
    act_spatial := [0], manager_returns := [0], worker_returns := [0],
    s := [0], g := [0], g_prev := [0], idx := [0], features := [0],
    terminal := false }

/-! The vector-level model of `cosine_similarity` for C8: numpy 1-D
float arrays as `List ℝ`. -/

/-- `eps = 1e-8` over the reals. -/
noncomputable def epsR : ℝ := 1 / 100000000

/-- The dot product of two flattened-to-1-D equal-length vectors (the
spec's `dot(u', v')`). -/
noncomputable def flatDot (u v : List ℝ) : ℝ := (List.zipWith (fun a b => a * b) u v).sum

/-- `np.dot(np.squeeze u, np.squeeze v)` for 1-D inputs: squeezing a
length-one 1-D array yields a 0-d scalar, and `np.dot` of two scalars
is their product; in every other equal-length case `np.dot` is the
ordinary 1-D dot product. -/
noncomputable def npSqueezeDot (u v : List ℝ) : ℝ :=
  match u, v with
  | [a], [b] => a * b
  | u, v => flatDot u v

/-- `np.linalg.norm` of a 1-D array: the square root of the sum of
squares. -/
noncomputable def normR (u : List ℝ) : ℝ :=
  Real.sqrt ((u.map fun x => x * x).sum)

/-- `cosine_similarity(u, v)` from the source (line 6), on 1-D float
vectors:
`np.dot(np.squeeze u, np.squeeze v) / (np.linalg.norm u * np.linalg.norm v + eps)`. -/
noncomputable def cosine_similarity (u v : List ℝ) : ℝ :=
  npSqueezeDot u v / (normR u * normR v + epsR)

/-- The spec's formula for the same function: flatten both inputs to
1-D, then `dot(u', v') / (norm(u) * norm(v) + 1e-8)` (flattening a 1-D
array is the identity). -/
noncomputable def cosineSpecFormula (u v : List ℝ) : ℝ :=
  flatDot u v / (normR u * normR v + epsR)

/-! Helper lemmas shared by the claim theorems. -/

lemma takeLast_length_le (n : ℕ) (l : List α) :
    (takeLast n l).length ≤ n := by
  simp [takeLast]
  omega

lemma mem_toOption_ok {α : Type} {e : Except PyErr α} {a : α}
    (h : a ∈ e.toOption) : e = .ok a := by
  cases e with
  | error err => simp [Except.toOption] at h
  | ok b => simp [Except.toOption, Option.mem_def] at h; simp [h]

/-! Per-claim theorems. -/

/-- C1 (code bug): the source's own comment says the terminal back-pad
"append[s] the final s and g c times", and the spec repeats it, but
`_pad_back` appends `np.zeros_like` values: after the horizon-1
terminal call on `termBatch1` (final `s = 3`, `g = 4`) the retained
embedding buffers end in `0`, not in the final real values — the state
buffer is `[0, 3, 0]` (front pad, real value, zero back pad) where the
claim requires `[0, 3, 3]`. -/
theorem c1_backpad_appends_zeros_not_final :
    (process_batch (initProc 1) termBatch1).toOption.map
        (fun p => (p.2.s, p.2.g)) = some ([0, 3, 0], [0, 4, 0]) ∧
    (([0, 3, 0] : List ℚ), ([0, 4, 0] : List ℚ)) ≠ ([0, 3, 3], [0, 4, 4]) := by
  decide

/-- C2 (code bug): after the horizon-1 non-terminal call on `ntBatch2`
(manager returns 10, 11; worker returns 20, 21) the worker-returns
buffer holds the trimmed manager returns `[some 10, some 11]` — line
213 of the source assigns `worker_returns` from the just-trimmed
`manager_returns` — instead of its own last `2c` entries
`[some 20, some 21]`. -/
theorem c2_worker_trim_aliases_manager :
    (process_batch (initProc 1) ntBatch2).toOption.map
        (fun p => (p.2.worker_returns, p.2.manager_returns)) =
      some ([some 10, some 11], [some 10, some 11]) ∧
    ([some (10 : ℚ), some 11] : List (Option ℚ)) ≠ [some 20, some 21] := by
  decide

/-- C3 (counterexample): with horizon 1, after one non-terminal call of
length 2 the derived buffers `idx`, `g_save` and `g_prev` hold 3
entries while `2c = 2` — the claim that every cross-call buffer is
trimmed to at most `2c` entries fails (they are never trimmed). -/
theorem c3_untrimmed_idx_counterexample :
    (process_batch (initProc 1) ntBatch2).toOption.map
        (fun p => (p.2.idx.length, p.2.g_save.length, p.2.g_prev.length,
                   p.2.c)) = some (3, 3, 3, 1) ∧
    ¬ (3 ≤ 2 * 1) := by
  decide

/-- C4 (code bug): the continuity property fails.  With horizon 1 and
the 3-step trajectory of `c4Full`, the single terminal call yields
records with `g_in = [5, 7, 9]` and worker returns `[200, 201, 202]`,
but the split schedule (2 non-terminal steps, then 1 terminal step)
yields `[5]` then `[5, 7]` for `g_in` (the untrimmed `g_save` buffer is
misaligned after the trim) and `[200]` then `[101, 202]` for worker
returns (the aliasing bug of C2): the shared record for step 1 differs
(`g_in` 7 vs 5, worker return 201 vs 101). -/
theorem c4_split_schedule_differs :
    (process_batch (initProc 1) c4Full).toOption.map
        (fun p => (p.1.g_in, p.1.worker_returns)) =
      some ([some 5, some 7, some 9], [some 200, some 201, some 202]) ∧
    c4SplitOutputs =
      some (([some 5], [some 200]), ([some 5, some 7], [some 101, some 202])) ∧
    (some (7 : ℚ) ≠ some (5 : ℚ) ∧ some (201 : ℚ) ≠ some (101 : ℚ)) := by
  decide

/-- C7 (counterexample): in the concrete scenario (horizon 2, five
steps, `s_t = t`, `g_t = 1`) the call succeeds with five records but
the first intrinsic reward is `0`, not `+1`: both of its cosine terms
compare a zero state difference against a zero front-padding goal. -/
theorem c7_ri_not_all_one :
    (process_batch (initProc 2) scenario7).toOption.map
        (fun p => p.1.ri.head?) = some (some 0) ∧
    (0 : ℚ) ≠ 1 := by
  decide

/-- C7 (amended): the scenario yields exactly five records whose
intrinsic rewards are `[0, (1/(1+eps))/2, a, a, a]` with
`a = (1/(1+eps) + 2/(2+eps))/2` — the zero front padding zeroes the
early windows and the `eps` in the denominator keeps every cosine
strictly below 1 — and whose `s_diff` values are `[2, 2, 2, -3, -4]`
(the last two corrupted by the zero back padding of C1). -/
theorem c7_exact_outputs :
    (process_batch (initProc 2) scenario7).toOption.map
        (fun p => (p.1.ri, p.1.s_diff, p.1.ri.length)) =
      some ([0, 50000000 / 100000001,
             20000000150000000 / 20000000300000001,
             20000000150000000 / 20000000300000001,
             20000000150000000 / 20000000300000001],
            [2, 2, 2, -3, -4], 5) := by
  decide

/-- C9 (counterexample): a zero-timestep batch on a fresh horizon-1
processor fails with the `IndexError` of `batch.s[0]` in `_pad_front`,
not with a dedicated empty-batch error — the source has no empty-batch
check. -/
theorem c9_fails_with_index_error_not_empty_batch :
    process_batch (initProc 1) emptyBatch0 = .error .indexOutOfRange ∧
    (Except.error PyErr.indexOutOfRange :
        Except PyErr (Batch × ProcState)) ≠ .error .emptyBatch := by
  decide

lemma npSqueezeDot_eq_flatDot (u v : List ℝ) :
    npSqueezeDot u v = flatDot u v := by
  unfold npSqueezeDot
  split
  · simp [flatDot]
  · rfl

/-- C8: on 1-D vectors of equal length, `cosine_similarity` equals the
spec's formula `dot(u', v') / (norm u * norm v + 1e-8)` with the inputs
flattened (squeezing a 1-D array cannot change the dot product), and
the epsilon keeps the denominator strictly positive for every input,
zero vectors included. -/
theorem c8_cosine_similarity_matches_spec (u v : List ℝ)
    (h : u.length = v.length) :
    cosine_similarity u v = cosineSpecFormula u v ∧
    0 < normR u * normR v + epsR := by
  constructor
  · unfold cosine_similarity cosineSpecFormula
    rw [npSqueezeDot_eq_flatDot]
  · have h1 : 0 ≤ normR u := Real.sqrt_nonneg _
    have h2 : 0 ≤ normR v := Real.sqrt_nonneg _
    have h3 : (0 : ℝ) < epsR := by norm_num [epsR]
    have h4 := mul_nonneg h1 h2
    linarith

/-- Witness for C8 at the concrete vectors `[1, 2]` and `[3, 4]`. -/
theorem c8_cosine_similarity_matches_spec_witness :
    (([1, 2] : List ℝ).length = ([3, 4] : List ℝ).length) ∧
    (cosine_similarity [1, 2] [3, 4] = cosineSpecFormula [1, 2] [3, 4] ∧
      0 < normR [1, 2] * normR [3, 4] + epsR) :=
  ⟨rfl, c8_cosine_similarity_matches_spec [1, 2] [3, 4] rfl⟩

lemma pad_front_ok_c {st st0 : ProcState} {b : RawBatch}
    (h : pad_front st b = .ok st0) :
    st0.c = st.c ∧ st0.last_terminal = st.last_terminal := by
  unfold pad_front at h
  split at h
  · simp at h
  · cases h
    exact ⟨rfl, rfl⟩

lemma pad_back_ok_c {st st0 : ProcState} {b : RawBatch}
    (h : pad_back st b = .ok st0) :
    st0.c = st.c ∧ st0.last_terminal = st.last_terminal := by
  unfold pad_back at h
  split at h
  · simp at h
  · cases h
    exact ⟨rfl, rfl⟩

lemma extend_ok_c {st st1 : ProcState} {b : RawBatch}
    (h : extend st b = .ok st1) :
    st1.c = st.c ∧ st1.last_terminal = false := by
  unfold extend at h
  split at h
  · simp at h
  next st0 heq =>
    have hc0 : st0.c = st.c ∧ st0.last_terminal = false := by
      split at heq
      next hlt =>
        have hp := pad_front_ok_c heq
        simp at hp
        exact hp
      next hlt =>
        cases heq
        exact ⟨rfl, by simpa using hlt⟩
    split at h
    · have hb := pad_back_ok_c h
      exact ⟨hb.1.trans hc0.1, hb.2.trans hc0.2⟩
    · cases h
      exact hc0

lemma process_batch_ok {st : ProcState} {b : RawBatch} {out : Batch}
    {st' : ProcState} (h : process_batch st b = .ok (out, st')) :
    ∃ st1, extend st b = .ok st1 ∧
      get_batch (windowLoop st1
        (if b.terminal then st1.screen.length
         else st1.screen.length - st1.c)) = .ok out ∧
      st' = (if b.terminal then { st1 with last_terminal := true }
             else trimState st1) := by
  unfold process_batch at h
  split at h
  · simp at h
  next st1 heq =>
    split at h
    · simp at h
    next out' hgb =>
      cases h
      exact ⟨st1, heq, hgb, rfl⟩

/-- C3 (amended): after any successful non-terminal call, the ten
buffers that the trim step slices — the three observation buffers, the
two action buffers, manager returns, worker returns, the state and goal
embeddings and the features — retain at most `2c` entries; the derived
buffers `g_save`, `g_prev` and `idx` are not trimmed by the source and
grow with the episode (see the counterexample). -/
theorem c3_nonterminal_trim_bounds (st : ProcState) (b : RawBatch)
    (ht : b.terminal = false) :
    ∀ p ∈ (process_batch st b).toOption,
      p.2.screen.length ≤ 2 * p.2.c ∧
      p.2.minimap.length ≤ 2 * p.2.c ∧
      p.2.non_spatial.length ≤ 2 * p.2.c ∧
      p.2.act_id.length ≤ 2 * p.2.c ∧
      p.2.act_spatial.length ≤ 2 * p.2.c ∧
      p.2.manager_returns.length ≤ 2 * p.2.c ∧
      p.2.worker_returns.length ≤ 2 * p.2.c ∧
      p.2.s.length ≤ 2 * p.2.c ∧
      p.2.g.length ≤ 2 * p.2.c ∧
      p.2.features.length ≤ 2 * p.2.c := by
  intro p hp
  obtain ⟨out, st'⟩ := p
  have h := mem_toOption_ok hp
  obtain ⟨st1, hex, hgb, hst⟩ := process_batch_ok h
  rw [ht] at hst
  simp only [Bool.false_eq_true, if_false] at hst
  subst hst
  simp only [trimState]
  exact ⟨takeLast_length_le _ _, takeLast_length_le _ _,
    takeLast_length_le _ _, takeLast_length_le _ _,
    takeLast_length_le _ _, takeLast_length_le _ _,
    takeLast_length_le _ _, takeLast_length_le _ _,
    takeLast_length_le _ _, takeLast_length_le _ _⟩

/-- Witness for C3's amended theorem at the concrete horizon-1 call on
`ntBatch2`. -/
theorem c3_nonterminal_trim_bounds_witness :
    ntBatch2.terminal = false ∧
    (∀ p ∈ (process_batch (initProc 1) ntBatch2).toOption,
      p.2.screen.length ≤ 2 * p.2.c ∧
      p.2.minimap.length ≤ 2 * p.2.c ∧
      p.2.non_spatial.length ≤ 2 * p.2.c ∧
      p.2.act_id.length ≤ 2 * p.2.c ∧
      p.2.act_spatial.length ≤ 2 * p.2.c ∧
      p.2.manager_returns.length ≤ 2 * p.2.c ∧
      p.2.worker_returns.length ≤ 2 * p.2.c ∧
      p.2.s.length ≤ 2 * p.2.c ∧
      p.2.g.length ≤ 2 * p.2.c ∧
      p.2.features.length ≤ 2 * p.2.c) :=
  ⟨rfl, c3_nonterminal_trim_bounds (initProc 1) ntBatch2 rfl⟩

lemma pad_front_only_c_lt (s1 s2 : ProcState) (b : RawBatch)
    (hc : s1.c = s2.c) (hl : s1.last_terminal = s2.last_terminal) :
    pad_front s1 b = pad_front s2 b := by
  cases s1
  cases s2
  simp only at hc hl
  subst hc
  subst hl
  rfl

lemma extend_awaiting_congr (s1 s2 : ProcState) (b : RawBatch)
    (h1 : s1.last_terminal = true) (h2 : s2.last_terminal = true)
    (hc : s1.c = s2.c) : extend s1 b = extend s2 b := by
  unfold extend
  rw [h1, h2]
  simp only [reduceIte]
  rw [pad_front_only_c_lt { s1 with last_terminal := false }
    { s2 with last_terminal := false } b (by simpa using hc) rfl]

lemma process_batch_awaiting_congr (s1 s2 : ProcState) (b : RawBatch)
    (h1 : s1.last_terminal = true) (h2 : s2.last_terminal = true)
    (hc : s1.c = s2.c) : process_batch s1 b = process_batch s2 b := by
  unfold process_batch
  rw [extend_awaiting_congr s1 s2 b h1 h2 hc]

lemma runSeq_awaiting_congr (bs : List RawBatch) :
    ∀ s1 s2 : ProcState, s1.last_terminal = true →
      s2.last_terminal = true → s1.c = s2.c →
      runSeq s1 bs = runSeq s2 bs := by
  induction bs with
  | nil => intro s1 s2 h1 h2 hc; rfl
  | cons b bs ih =>
    intro s1 s2 h1 h2 hc
    simp only [runSeq]
    rw [process_batch_awaiting_congr s1 s2 b h1 h2 hc]

lemma process_batch_terminal_state {st : ProcState} {b : RawBatch}
    {out : Batch} {st' : ProcState}
    (h : process_batch st b = .ok (out, st')) (ht : b.terminal = true) :
    st'.last_terminal = true ∧ st'.c = st.c := by
  obtain ⟨st1, hex, hgb, hst⟩ := process_batch_ok h
  rw [ht] at hst
  simp only [if_true] at hst
  subst hst
  exact ⟨rfl, by simpa using (extend_ok_c hex).1⟩

/-- C5: after any successful terminal call, the processor behaves
exactly like a freshly constructed processor with the same horizon:
every subsequent sequence of calls (up to and including a first error,
if any) returns the same results from both.  The stale buffers left
behind by the terminal call are dead state — `last_terminal = true`
makes the next `_pad_front` reassign every buffer before any read. -/
theorem c5_terminal_call_resets_to_fresh (st : ProcState) (b : RawBatch)
    (ht : b.terminal = true) (bs : List RawBatch) :
    ∀ p ∈ (process_batch st b).toOption,
      runSeq p.2 bs = runSeq (initProc st.c) bs := by
  intro p hp
  obtain ⟨out, st'⟩ := p
  have h := mem_toOption_ok hp
  have hfacts := process_batch_terminal_state h ht
  exact runSeq_awaiting_congr bs st' (initProc st.c) hfacts.1 rfl
    (by simpa [initProc] using hfacts.2)

/-- Witness for C5: the terminal call on `termBatch1` with horizon 1,
followed by the one-batch continuation `[scenario7]`. -/
theorem c5_terminal_call_resets_to_fresh_witness :
    termBatch1.terminal = true ∧
    (∀ p ∈ (process_batch (initProc 1) termBatch1).toOption,
      runSeq p.2 [scenario7] = runSeq (initProc (initProc 1).c) [scenario7]) :=
  ⟨rfl, c5_terminal_call_resets_to_fresh (initProc 1) termBatch1 rfl [scenario7]⟩

lemma isEmpty_false_of_length {l : List α} {L : ℕ} (h : l.length = L)
    (hL : 1 ≤ L) : l.isEmpty = false := by
  cases l with
  | nil => simp at h; omega
  | cons x xs => rfl

lemma extend_init (c : ℕ) (b : RawBatch) (hs : b.s.isEmpty = false)
    (hg : b.g.isEmpty = false) :
    extend (initProc c) b = .ok (extendInitState c b) := by
  unfold extend pad_front pad_back initProc extendInitState
  cases hbt : b.terminal <;> simp [hs, hg]

lemma foldl_windowStep_lengths (st : ProcState) (ts : List ℕ) :
    ∀ a : DeepFeudalBatch,
      (ts.foldl (windowStep st) a).ri.length = a.ri.length + ts.length ∧
      (ts.foldl (windowStep st) a).s_diff.length =
        a.s_diff.length + ts.length ∧
      (ts.foldl (windowStep st) a).idx.length = a.idx.length + ts.length ∧
      (ts.foldl (windowStep st) a).features.length =
        a.features.length + ts.length := by
  induction ts with
  | nil => intro a; simp
  | cons t ts ih =>
    intro a
    simp only [List.foldl_cons, List.length_cons]
    obtain ⟨ih1, ih2, ih3, ih4⟩ := ih (windowStep st a t)
    rw [ih1, ih2, ih3, ih4]
    simp only [windowStep, DeepFeudalBatch.add, List.length_append,
      List.length_cons, List.length_nil]
    omega

lemma get_batch_ok_of_nonempty {a : DeepFeudalBatch}
    (hi : a.idx ≠ []) (hf : a.features ≠ []) :
    ∃ out, get_batch a = .ok out ∧ out.ri = a.ri ∧
      out.s_diff = a.s_diff := by
  cases hI : a.idx with
  | nil => exact absurd hI hi
  | cons i0 is =>
    cases hF : a.features with
    | nil => exact absurd hF hf
    | cons f0 fs =>
      refine ⟨?_, ?_, ?_, ?_⟩
      case _ => exact
        { screen := a.screen
          minimap := a.minimap
          non_spatial := a.non_spatial
          act_id := a.act_id
          act_spatial := a.act_spatial
          manager_returns := a.manager_returns
          worker_returns := a.worker_returns
          s_diff := a.s_diff
          ri := a.ri
          g_in := a.g
          gsum := a.gsum
          g_prev := a.g_prev
          idx := i0
          features := f0 }
      · unfold get_batch
        rw [hI, hF]
      · rfl
      · rfl

lemma process_batch_eq (st : ProcState) (b : RawBatch) (st1 : ProcState)
    (hex : extend st b = .ok st1) {out : Batch}
    (hgb : get_batch (windowLoop st1
      (if b.terminal then st1.screen.length
       else st1.screen.length - st1.c)) = .ok out) :
    process_batch st b = .ok (out,
      if b.terminal then { st1 with last_terminal := true }
      else trimState st1) := by
  unfold process_batch
  rw [hex]
  dsimp only
  rw [hgb]

/-- C6: for any horizon `c ≥ 1`, a single terminal raw batch of length
`L ≥ 1` given to a fresh processor yields a ProcessedBatch holding
exactly `L` records (witnessed by the lengths of the per-record `ri`
and `s_diff` lists). -/
theorem c6_terminal_first_call_record_count (c L : ℕ) (b : RawBatch)
    (hc : 1 ≤ c) (hL : 1 ≤ L) (hwf : wellFormed b L)
    (ht : b.terminal = true) :
    ∃ out st', process_batch (initProc c) b = .ok (out, st') ∧
      out.ri.length = L ∧ out.s_diff.length = L := by
  obtain ⟨h1, h2, h3, h4, h5, h6, h7, hsL, hgL, h10, h11, h12⟩ := hwf
  have hs' := isEmpty_false_of_length hsL hL
  have hg' := isEmpty_false_of_length hgL hL
  have hlen : (extendInitState c b).screen.length = c + L := by
    simp [extendInitState, h1]
  obtain ⟨st1, hst1c, hscr, hex⟩ : ∃ st1 : ProcState, st1.c = c ∧
      st1.screen.length = c + L ∧ extend (initProc c) b = .ok st1 :=
    ⟨extendInitState c b, rfl, hlen, extend_init c b hs' hg'⟩
  obtain ⟨a1, a2, a3, a4⟩ := foldl_windowStep_lengths st1
    (List.range' st1.c (st1.screen.length - st1.c)) DeepFeudalBatch.empty
  have hrange : (List.range' st1.c
      (st1.screen.length - st1.c)).length = L := by
    rw [List.length_range', hscr, hst1c]
    exact Nat.add_sub_cancel_left c L
  have hacc : (windowLoop st1 st1.screen.length).ri.length = L ∧
      (windowLoop st1 st1.screen.length).s_diff.length = L ∧
      (windowLoop st1 st1.screen.length).idx.length = L ∧
      (windowLoop st1 st1.screen.length).features.length = L := by
    unfold windowLoop
    rw [a1, a2, a3, a4, hrange]
    exact ⟨Nat.zero_add L, Nat.zero_add L, Nat.zero_add L, Nat.zero_add L⟩
  obtain ⟨out, hgb, hri, hsd⟩ := get_batch_ok_of_nonempty
    (a := windowLoop st1 st1.screen.length)
    (List.length_pos.mp (by rw [hacc.2.2.1]; exact hL))
    (List.length_pos.mp (by rw [hacc.2.2.2]; exact hL))
  have hgb' : get_batch (windowLoop st1
      (if b.terminal then st1.screen.length
       else st1.screen.length - st1.c)) = .ok out := by
    rw [ht]
    simp only [reduceIte]
    exact hgb
  refine ⟨out, _, process_batch_eq (initProc c) b st1 hex hgb', ?_, ?_⟩
  · rw [hri]
    exact hacc.1
  · rw [hsd]
    exact hacc.2.1

/-- Witness for C6 at horizon 1 and the length-1 terminal batch
`termBatch1`. -/
theorem c6_terminal_first_call_record_count_witness :
    (1 ≤ 1 ∧ wellFormed termBatch1 1 ∧ termBatch1.terminal = true) ∧
    (∃ out st', process_batch (initProc 1) termBatch1 = .ok (out, st') ∧
      out.ri.length = 1 ∧ out.s_diff.length = 1) :=
  ⟨⟨le_refl 1, by decide, rfl⟩,
    c6_terminal_first_call_record_count 1 1 termBatch1 (le_refl 1)
      (le_refl 1) (by decide) rfl⟩

/-- C10: a first non-terminal raw batch of length `1 ≤ L ≤ c` on a
fresh processor emits zero records (the window loop over
`range(c, L)` is empty, leaving the accumulator empty) and
`process_batch` then fails inside `get_batch` with the out-of-range
read of element 0 of the empty `idx`/`features` sequences, instead of
returning an empty ProcessedBatch. -/
theorem c10_short_first_nonterminal_call_fails (c L : ℕ) (b : RawBatch)
    (hc : 1 ≤ c) (hL : 1 ≤ L) (hLc : L ≤ c) (hwf : wellFormed b L)
    (ht : b.terminal = false) :
    (∃ st1, extend (initProc c) b = .ok st1 ∧
      windowLoop st1 (st1.screen.length - st1.c) = DeepFeudalBatch.empty) ∧
    get_batch DeepFeudalBatch.empty = .error .indexOutOfRange ∧
    process_batch (initProc c) b = .error .indexOutOfRange := by
  obtain ⟨h1, h2, h3, h4, h5, h6, h7, hsL, hgL, h10, h11, h12⟩ := hwf
  have hs' := isEmpty_false_of_length hsL hL
  have hg' := isEmpty_false_of_length hgL hL
  have hlen : (extendInitState c b).screen.length = c + L := by
    simp [extendInitState, h1]
  obtain ⟨st1, hst1c, hscr, hex⟩ : ∃ st1 : ProcState, st1.c = c ∧
      st1.screen.length = c + L ∧ extend (initProc c) b = .ok st1 :=
    ⟨extendInitState c b, rfl, hlen, extend_init c b hs' hg'⟩
  have h0 : st1.screen.length - st1.c - st1.c = 0 := by
    rw [hscr, hst1c, Nat.add_sub_cancel_left c L]
    exact Nat.sub_eq_zero_of_le hLc
  have hwl : windowLoop st1 (st1.screen.length - st1.c) =
      DeepFeudalBatch.empty := by
    unfold windowLoop
    rw [h0]
    rfl
  have hgbe : get_batch DeepFeudalBatch.empty =
      .error .indexOutOfRange := rfl
  refine ⟨⟨st1, hex, hwl⟩, hgbe, ?_⟩
  unfold process_batch
  rw [hex]
  dsimp only
  simp only [ht, Bool.false_eq_true, reduceIte]
  rw [hwl, hgbe]

/-- Witness for C10 at horizon 2 and the one-step non-terminal batch
`shortBatch1`. -/
theorem c10_short_first_nonterminal_call_fails_witness :
    (1 ≤ 2 ∧ 1 ≤ 1 ∧ 1 ≤ 2 ∧ wellFormed shortBatch1 1 ∧
      shortBatch1.terminal = false) ∧
    ((∃ st1, extend (initProc 2) shortBatch1 = .ok st1 ∧
        windowLoop st1 (st1.screen.length - st1.c) =
          DeepFeudalBatch.empty) ∧
      get_batch DeepFeudalBatch.empty = .error .indexOutOfRange ∧
      process_batch (initProc 2) shortBatch1 =
        .error .indexOutOfRange) :=
  ⟨⟨by decide, by decide, by decide, by decide, rfl⟩,
    c10_short_first_nonterminal_call_fails 2 1 shortBatch1 (by decide)
      (by decide) (by decide) (by decide) rfl⟩

lemma windowLoop_empty (st : ProcState) (E : ℕ) (h : E - st.c = 0) :
    windowLoop st E = DeepFeudalBatch.empty := by
  unfold windowLoop
  rw [h]
  rfl

/-- C9 (amended): for every processor state with horizon `c ≥ 1` that is
either awaiting an episode start or retains at most `2c` screen entries
(every reachable state is of one of these forms), a raw batch with zero
timesteps makes `process_batch` fail synchronously with an
index-out-of-range error — from `batch.s[0]`/`batch.s[-1]` during
padding, or from element 0 of the never-filled accumulator — never with
a dedicated empty-batch error and never returning a batch. -/
theorem c9_empty_batch_fails_with_index_error (st : ProcState)
    (b : RawBatch) (hc : 1 ≤ st.c)
    (hst : st.last_terminal = true ∨ st.screen.length ≤ 2 * st.c)
    (hb : wellFormed b 0) :
    process_batch st b = .error .indexOutOfRange := by
  obtain ⟨e1, e2, e3, e4, e5, e6, e7, es, eg, e10, e11, e12⟩ := hb
  rw [List.length_eq_zero] at e1 e2 e3 e4 e5 e6 e7 es eg e10 e11 e12
  have hne : st.c ≠ 0 := by omega
  cases hlt : st.last_terminal with
  | true =>
    simp [process_batch, extend, pad_front, hlt, es, eg, hne]
  | false =>
    cases hbt : b.terminal with
    | true =>
      simp [process_batch, extend, pad_back, hlt, hbt, es, eg, hne,
        e1, e2, e3, e4, e5, e6, e7, e10, e11, e12]
    | false =>
      have hlen : st.screen.length ≤ 2 * st.c := by
        rcases hst with h | h
        · rw [hlt] at h
          cases h
        · exact h
      have h0 : st.screen.length - st.c - st.c = 0 := by omega
      simp only [process_batch, extend, hlt, hbt, es, eg,
        e1, e2, e3, e4, e5, e6, e7, e10, e11, e12, Bool.false_eq_true,
        reduceIte, List.append_nil, List.map_nil]
      rw [windowLoop_empty { st with last_terminal := false }
        (st.screen.length - st.c) h0]
      rfl

/-- Witness for C9's amended theorem at a fresh horizon-1 processor and
the zero-timestep batch. -/
theorem c9_empty_batch_fails_with_index_error_witness :
    (1 ≤ (initProc 1).c ∧ ((initProc 1).last_terminal = true ∨
        (initProc 1).screen.length ≤ 2 * (initProc 1).c) ∧
      wellFormed emptyBatch0 0) ∧
    process_batch (initProc 1) emptyBatch0 = .error .indexOutOfRange :=
  ⟨⟨by decide, Or.inl rfl, by decide⟩,
    c9_empty_batch_fails_with_index_error (initProc 1) emptyBatch0
      (by decide) (Or.inl rfl) (by decide)⟩

end NLFuN
